import Mathlib

/-!
# Idempotent-request middleware: shallow embedding and verification

This file embeds the idempotent-request middleware of the repository
(`src/app/middlewares/idempotent_request.py`, the FastAPI/Starlette variant, and
`src/app/routers/middlewares/idempotent_request.py`, the Litestar/ASGI variant)
and settles the specification's claims about it.

Representation conventions:
* A Python `bytes` value is a `List Nat` of byte values (each `< 256`).
* A Python `str` is a `List Nat` of Unicode code points.  `s.encode()` (UTF-8)
  is `utf8Str`, `s.encode("latin-1")` is the identity on code points `< 256`
  (modelled by `latin1Enc`), and `bytes.decode("latin-1")` is the identity from
  byte values to code points.
* `hashlib.sha256(..).hexdigest()` is `sha256Hex`, a full executable SHA-256
  over byte lists, with the lowercase-hex digest returned as code points.
* `cbor2.dumps` / `cbor2.loads` on the middleware's record shape
  `{"body": bytes, "headers": dict[str, str], "status_code": int}` are
  `encodeRecord` / `decodeRecord` (definite-length CBOR, minimal-width
  argument encodings, insertion-order map entries — cbor2's defaults).
* Redis `get` is a function `Str → RedisGetResult`; a raised connection error
  (`CacheUnavailable`) and a raised `cbor2` decode error surface as `Except`
  errors, matching the absence of any `try`/`except` in the middleware.
-/

namespace IdempotencyMW

/-- A byte string (Python `bytes`): a list of byte values, each `< 256`. -/
abbrev Bytes := List Nat

/-- A Python `str`: a list of Unicode code points. -/
abbrev Str := List Nat

/-- UTF-8 encoding of one code point (Python `str.encode()` per character). -/
def utf8Char (c : Nat) : Bytes :=
  if c < 128 then [c]
  else if c < 2048 then [192 + c / 64, 128 + c % 64]
  else if c < 65536 then [224 + c / 4096, 128 + c / 64 % 64, 128 + c % 64]
  else [240 + c / 262144, 128 + c / 4096 % 64, 128 + c / 64 % 64, 128 + c % 64]

/-- UTF-8 encoding of a string (Python `str.encode()`). -/
def utf8Str (s : Str) : Bytes := s.flatMap utf8Char

/-- Python `str.encode("latin-1")`: identity on code points below 256 (Python raises
beyond that; theorems that rely on this encoder carry the `< 256` bound). -/
def latin1Enc (s : Str) : Bytes := s

/-! ## SHA-256 (`hashlib.sha256`), executable over byte lists -/

/-- The constant `2^32`, the word modulus of SHA-256. -/
def w32 : Nat := 4294967296

/-- Right rotation of a 32-bit word. -/
def rotr (n x : Nat) : Nat := ((x >>> n) ||| (x <<< (32 - n))) % w32

/-- SHA-256 `Ch(x,y,z) = (x ∧ y) ⊕ (¬x ∧ z)` with 32-bit complement. -/
def ch (x y z : Nat) : Nat := (x &&& y) ^^^ ((4294967295 ^^^ x) &&& z)

/-- SHA-256 `Maj(x,y,z)`. -/
def maj (x y z : Nat) : Nat := (x &&& y) ^^^ (x &&& z) ^^^ (y &&& z)

/-- SHA-256 `Σ₀`. -/
def bigSigma0 (x : Nat) : Nat := rotr 2 x ^^^ rotr 13 x ^^^ rotr 22 x

/-- SHA-256 `Σ₁`. -/
def bigSigma1 (x : Nat) : Nat := rotr 6 x ^^^ rotr 11 x ^^^ rotr 25 x

/-- SHA-256 `σ₀`. -/
def smallSigma0 (x : Nat) : Nat := rotr 7 x ^^^ rotr 18 x ^^^ (x >>> 3)

/-- SHA-256 `σ₁`. -/
def smallSigma1 (x : Nat) : Nat := rotr 17 x ^^^ rotr 19 x ^^^ (x >>> 10)

/-- The 64 SHA-256 round constants. -/
def sha256K : List Nat :=
  [1116352408, 1899447441, 3049323471, 3921009573, 961987163, 1508970993,
   2453635748, 2870763221, 3624381080, 310598401, 607225278, 1426881987,
   1925078388, 2162078206, 2614888103, 3248222580, 3835390401, 4022224774,
   264347078, 604807628, 770255983, 1249150122, 1555081692, 1996064986,
   2554220882, 2821834349, 2952996808, 3210313671, 3336571891, 3584528711,
   113926993, 338241895, 666307205, 773529912, 1294757372, 1396182291,
   1695183700, 1986661051, 2177026350, 2456956037, 2730485921, 2820302411,
   3259730800, 3345764771, 3516065817, 3600352804, 4094571909, 275423344,
   430227734, 506948616, 659060556, 883997877, 958139571, 1322822218,
   1537002063, 1747873779, 1955562222, 2024104815, 2227730452, 2361852424,
   2428436474, 2756734187, 3204031479, 3329325298]

/-- The initial SHA-256 hash state. -/
def sha256H0 : List Nat :=
  [1779033703, 3144134277, 1013904242, 2773480762,
   1359893119, 2600822924, 528734635, 1541459225]

/-- SHA-256 padding: append `0x80`, zeros to 56 mod 64, then the bit length
as an 8-byte big-endian integer. -/
def sha256Pad (msg : Bytes) : Bytes :=
  let L := msg.length
  let k := (120 - (L + 1) % 64) % 64
  let bitLen := 8 * L
  msg ++ [128] ++ List.replicate k 0 ++
    [bitLen / 72057594037927936 % 256, bitLen / 281474976710656 % 256,
     bitLen / 1099511627776 % 256, bitLen / 4294967296 % 256,
     bitLen / 16777216 % 256, bitLen / 65536 % 256,
     bitLen / 256 % 256, bitLen % 256]

/-- Split a byte list into 64-byte blocks (structural recursion on a fuel
bound so the kernel can evaluate it). -/
def chunks64Go : Nat → Bytes → List Bytes
  | 0, _ => []
  | _, [] => []
  | fuel + 1, l@(_ :: _) => l.take 64 :: chunks64Go fuel (l.drop 64)

/-- Split a byte list into 64-byte blocks. -/
def chunks64 (l : Bytes) : List Bytes := chunks64Go l.length l

/-- Big-endian 32-bit words from a block of bytes. -/
def toWords : Bytes → List Nat
  | b0 :: b1 :: b2 :: b3 :: rest =>
      (b0 * 16777216 + b1 * 65536 + b2 * 256 + b3) :: toWords rest
  | _ => []

/-- Extend 16 message words into the 64-entry message schedule. -/
def schedule (w16 : List Nat) : List Nat :=
  (List.range 48).foldl
    (fun ws _ =>
      let n := ws.length
      ws ++ [(smallSigma1 (ws.getD (n - 2) 0) + ws.getD (n - 7) 0 +
              smallSigma0 (ws.getD (n - 15) 0) + ws.getD (n - 16) 0) % w32])
    w16

/-- One SHA-256 round: update the working variables from `(Kₜ, Wₜ)`. -/
def round (st : Nat × Nat × Nat × Nat × Nat × Nat × Nat × Nat) (kw : Nat × Nat) :
    Nat × Nat × Nat × Nat × Nat × Nat × Nat × Nat :=
  let (a, b, c, d, e, f, g, h) := st
  let t1 := (h + bigSigma1 e + ch e f g + kw.1 + kw.2) % w32
  let t2 := (bigSigma0 a + maj a b c) % w32
  ((t1 + t2) % w32, a, b, c, (d + t1) % w32, e, f, g)

/-- Compress one 64-byte block into the running hash state. -/
def compress (H : List Nat) (block : Bytes) : List Nat :=
  let W := schedule (toWords block)
  let init := (H.getD 0 0, H.getD 1 0, H.getD 2 0, H.getD 3 0,
               H.getD 4 0, H.getD 5 0, H.getD 6 0, H.getD 7 0)
  let st := (sha256K.zip W).foldl round init
  List.zipWith (fun x y => (x + y) % w32) H
    [st.1, st.2.1, st.2.2.1, st.2.2.2.1, st.2.2.2.2.1, st.2.2.2.2.2.1,
     st.2.2.2.2.2.2.1, st.2.2.2.2.2.2.2]

/-- The SHA-256 digest of a byte list, as 32 bytes. -/
def sha256Bytes (msg : Bytes) : Bytes :=
  ((chunks64 (sha256Pad msg)).foldl compress sha256H0).flatMap
    (fun w => [w / 16777216 % 256, w / 65536 % 256, w / 256 % 256, w % 256])

/-- A nibble as a lowercase hex-digit code point (`0`–`9`, `a`–`f`). -/
def hexDigit (n : Nat) : Nat := if n < 10 then 48 + n else 87 + n

/-- Python `hashlib.sha256(msg).hexdigest()`: the lowercase hex digest, as the code
points of the Python string. -/
def sha256Hex (msg : Bytes) : Str :=
  (sha256Bytes msg).flatMap (fun b => [hexDigit (b / 16), hexDigit (b % 16)])

/-! ## CBOR (`cbor2.dumps` / `cbor2.loads`) on the middleware's record shape

The middleware serializes `{"body": bytes, "headers": dict[str, str],
"status_code": int}`.  `cbor2.dumps` emits definite-length items with
minimal-width argument encodings and map entries in insertion order; we embed
exactly the fragment of CBOR this value shape uses (majors 0, 2, 3, 5).
`decodeRecord` is `cbor2.loads` composed with the middleware's field accesses
`cached_data["body"] / ["headers"] / ["status_code"]`, specialized to the
layout `dumps` produces; `none` stands for a raised `CBORDecodeError` /
`KeyError`. -/

/-- CBOR initial byte(s): major type and minimal-width argument encoding. -/
def encodeTypeHeader (major n : Nat) : Bytes :=
  if n < 24 then [32 * major + n]
  else if n < 256 then [32 * major + 24, n]
  else if n < 65536 then [32 * major + 25, n / 256, n % 256]
  else if n < 4294967296 then
    [32 * major + 26, n / 16777216 % 256, n / 65536 % 256, n / 256 % 256,
     n % 256]
  else
    [32 * major + 27, n / 72057594037927936 % 256, n / 281474976710656 % 256,
     n / 1099511627776 % 256, n / 4294967296 % 256, n / 16777216 % 256,
     n / 65536 % 256, n / 256 % 256, n % 256]

/-- Decode a CBOR initial byte and argument: `(major, value, rest)`. -/
def decodeTypeHeader : Bytes → Option (Nat × Nat × Bytes)
  | [] => none
  | b :: rest =>
    if b % 32 < 24 then some (b / 32, b % 32, rest)
    else if b % 32 = 24 then
      match rest with
      | a0 :: r => some (b / 32, a0, r)
      | _ => none
    else if b % 32 = 25 then
      match rest with
      | a0 :: a1 :: r => some (b / 32, 256 * a0 + a1, r)
      | _ => none
    else if b % 32 = 26 then
      match rest with
      | a0 :: a1 :: a2 :: a3 :: r =>
          some (b / 32, 16777216 * a0 + 65536 * a1 + 256 * a2 + a3, r)
      | _ => none
    else if b % 32 = 27 then
      match rest with
      | a0 :: a1 :: a2 :: a3 :: a4 :: a5 :: a6 :: a7 :: r =>
          some (b / 32,
            72057594037927936 * a0 + 281474976710656 * a1 +
              1099511627776 * a2 + 4294967296 * a3 + 16777216 * a4 +
              65536 * a5 + 256 * a6 + a7, r)
      | _ => none
    else none

/-- Read exactly `n` payload bytes: `(payload, rest)`. -/
def readBytes (n : Nat) (bs : Bytes) : Option (Bytes × Bytes) :=
  if n ≤ bs.length then some (bs.take n, bs.drop n) else none

/-- Decode UTF-8 bytes back to code points (the 1- and 2-byte forms the
record's strings use). -/
def utf8Decode : Bytes → Option Str
  | [] => some []
  | b :: rest =>
    if b < 128 then (utf8Decode rest).map (b :: ·)
    else if 194 ≤ b ∧ b < 224 then
      match rest with
      | b2 :: r =>
          if 128 ≤ b2 ∧ b2 < 192 then
            (utf8Decode r).map ((64 * (b - 192) + (b2 - 128)) :: ·)
          else none
      | [] => none
    else none

/-- CBOR unsigned integer (major 0). -/
def encodeUintItem (n : Nat) : Bytes := encodeTypeHeader 0 n

/-- CBOR byte string (major 2). -/
def encodeBytesItem (b : Bytes) : Bytes := encodeTypeHeader 2 b.length ++ b

/-- CBOR text string (major 3): UTF-8 payload, byte length in the header. -/
def encodeTextItem (s : Str) : Bytes :=
  encodeTypeHeader 3 (utf8Str s).length ++ utf8Str s

/-- Decode a CBOR unsigned integer. -/
def decodeUintItem (bs : Bytes) : Option (Nat × Bytes) :=
  match decodeTypeHeader bs with
  | some (0, n, rest) => some (n, rest)
  | _ => none

/-- Decode a CBOR byte string. -/
def decodeBytesItem (bs : Bytes) : Option (Bytes × Bytes) :=
  match decodeTypeHeader bs with
  | some (2, n, rest) => readBytes n rest
  | _ => none

/-- Decode a CBOR text string to its code points. -/
def decodeTextItem (bs : Bytes) : Option (Str × Bytes) :=
  match decodeTypeHeader bs with
  | some (3, n, rest) =>
    match readBytes n rest with
    | some (payload, r) => (utf8Decode payload).map (·, r)
    | none => none
  | _ => none

/-- The headers dict: text keys and values, in insertion order. -/
def encodeHeaders (hs : List (Str × Str)) : Bytes :=
  encodeTypeHeader 5 hs.length ++
    hs.flatMap (fun kv => encodeTextItem kv.1 ++ encodeTextItem kv.2)

/-- Decode `n` text-keyed text-valued map entries. -/
def decodePairs : Nat → Bytes → Option (List (Str × Str) × Bytes)
  | 0, bs => some ([], bs)
  | n + 1, bs =>
    match decodeTextItem bs with
    | some (k, r1) =>
      match decodeTextItem r1 with
      | some (v, r2) =>
        match decodePairs n r2 with
        | some (tl, r3) => some ((k, v) :: tl, r3)
        | none => none
      | none => none
    | none => none

/-- A Cached Response Record: captured body bytes, captured headers
(name → value, a dict in the source), and the recorded status code. -/
structure CachedRecord where
  body : Bytes
  headers : List (Str × Str)
  status : Nat
deriving DecidableEq, Repr

/-- Code points of the dict key `"body"`. -/
def keyBody : Str := [98, 111, 100, 121]

/-- Code points of the dict key `"headers"`. -/
def keyHeaders : Str := [104, 101, 97, 100, 101, 114, 115]

/-- Code points of the dict key `"status_code"`. -/
def keyStatus : Str := [115, 116, 97, 116, 117, 115, 95, 99, 111, 100, 101]

/-- Embeds `cbor2.dumps` of the record dict, keys in the source's insertion order. -/
def encodeRecord (r : CachedRecord) : Bytes :=
  encodeTypeHeader 5 3 ++
    encodeTextItem keyBody ++ encodeBytesItem r.body ++
    encodeTextItem keyHeaders ++ encodeHeaders r.headers ++
    encodeTextItem keyStatus ++ encodeUintItem r.status

/-- Embeds `cbor2.loads` followed by the middleware's three field accesses,
specialized to the layout `encodeRecord` (i.e. `cbor2.dumps`) writes.
`none` models a raised decode error. -/
def decodeRecord (bs : Bytes) : Option CachedRecord :=
  match decodeTypeHeader bs with
  | some (m0, cnt, r0) =>
    if m0 = 5 ∧ cnt = 3 then
      match decodeTextItem r0 with
      | some (k1, r1) =>
        if k1 = keyBody then
          match decodeBytesItem r1 with
          | some (body, r2) =>
            match decodeTextItem r2 with
            | some (k2, r3) =>
              if k2 = keyHeaders then
                match decodeTypeHeader r3 with
                | some (mh, hn, r4) =>
                  if mh = 5 then
                    match decodePairs hn r4 with
                    | some (hs, r5) =>
                      match decodeTextItem r5 with
                      | some (k3, r6) =>
                        if k3 = keyStatus then
                          match decodeUintItem r6 with
                          | some (sc, _) => some ⟨body, hs, sc⟩
                          | none => none
                        else none
                      | none => none
                    | none => none
                  else none
                | none => none
              else none
            | none => none
          | none => none
        else none
      | none => none
    else none
  | none => none

/-! ## Interception decision and fingerprint

Shared by both variants: `dispatch` (FastAPI variant, lines 59–69) and
`handle` (Litestar variant, lines 63–69) intercept exactly when the
`X-Idempotency-Key` header is truthy (present and non-empty) and the method is
in the protected set, and both derive the cache key the same way
(lines 90–94 resp. 73–78). -/

/-- The set `allowed_methods` of protected methods POST, PUT, PATCH, as code-point strings. -/
def allowedMethods : List Str :=
  [[80, 79, 83, 84], [80, 85, 84], [80, 65, 84, 67, 72]]

/-- The Python test `idempotency_key and request.method in self.allowed_methods`:
`headers.get` yields `None` when absent, and both `None` and the empty string
are falsy. -/
def shouldIntercept (method : Str) (idempotencyKey : Option Str) : Bool :=
  match idempotencyKey with
  | none => false
  | some k => decide (k ≠ []) && decide (method ∈ allowedMethods)

/-- The bytes hashed for the fingerprint:
`request.method.encode() + request.url.path.encode() + request_body +
idempotency_key.encode()` — plain concatenation, no separators. -/
def preimage (method path : Str) (body : Bytes) (key : Str) : Bytes :=
  utf8Str method ++ utf8Str path ++ body ++ utf8Str key

/-- The digest `sha256(method + path + body + key).hexdigest()`. -/
def fingerprint (method path : Str) (body : Bytes) (key : Str) : Str :=
  sha256Hex (preimage method path body key)

/-- Code points of the namespace prefix `"request:"`. -/
def requestNamespace : Str := [114, 101, 113, 117, 101, 115, 116, 58]

/-- The key `self._redis_key.format(key=key)`, i.e. `"request:" + hex digest`. -/
def redisKeyOf (fp : Str) : Str := requestNamespace ++ fp

/-- Python `str.lower()` restricted to the ASCII letters (the only case the
claims use; all header names involved are ASCII). -/
def pyLowerChar (c : Nat) : Nat := if 65 ≤ c ∧ c ≤ 90 then c + 32 else c

/-- Python `str.lower()` on a code-point string. -/
def pyLower (s : Str) : Str := s.map pyLowerChar

/-- Outcome of `await redis.get(key)`: a stored value, a miss (`None`), or a
raised backend/connection error. -/
inductive RedisGetResult where
  | found (raw : Bytes)
  | missing
  | unavailable
deriving DecidableEq, Repr

/-- An exception escaping the middleware (neither variant has any
`try`/`except`): a raised Redis connection error, a raised `cbor2`
decode error, or — Litestar variant only — the receive loop never seeing a
final request chunk (modelling indefinite suspension of the `while` loop). -/
inductive MWError where
  | cacheUnavailable
  | malformedRecord
  | incompleteRequest
deriving DecidableEq, Repr

/-! ## FastAPI/Starlette variant (`src/app/middlewares/idempotent_request.py`) -/

/-- The downstream response observed by `_handle_request` after
`call_next`: its status code, its `body_iterator` chunks, and
`dict(response.headers)`. -/
structure DownstreamResponse where
  status : Nat
  bodyChunks : List Bytes
  headers : List (Str × Str)
deriving DecidableEq, Repr

/-- Python `dict.get(k)` on an insertion-ordered dict. -/
def dictGet (d : List (Str × Str)) (k : Str) : Option Str :=
  (d.find? (fun kv => kv.1 == k)).map (·.2)

/-- Code points of `"content-type"`. -/
def contentTypeKey : Str :=
  [99, 111, 110, 116, 101, 110, 116, 45, 116, 121, 112, 101]

/-- Code points of `"application/json"`. -/
def appJson : Str :=
  [97, 112, 112, 108, 105, 99, 97, 116, 105, 111, 110, 47, 106, 115, 111, 110]

/-- The arguments of the `Response(...)` constructed on a cache hit
(lines 98–103): content, media type, remaining headers, status code. -/
structure FastapiCachedResponse where
  content : Bytes
  mediaType : Str
  headers : List (Str × Str)
  status : Nat
deriving DecidableEq, Repr

/-- Lines 98–103: `Response(content=cached_data["body"],
media_type=cached_data["headers"].get("content-type", "application/json"),
headers={k: v for k, v in ... if k.lower() != "content-type"},
status_code=cached_data["status_code"])`. -/
def responseFromRecord (rec : CachedRecord) : FastapiCachedResponse :=
  { content := rec.body
  , mediaType := (dictGet rec.headers contentTypeKey).getD appJson
  , headers := rec.headers.filter (fun kv => pyLower kv.1 ≠ contentTypeKey)
  , status := rec.status }

/-- What the dispatch returns to the client: a response synthesized from the
cache, or the downstream response passed through unmodified. -/
inductive MWResponse where
  | fromCache (r : FastapiCachedResponse)
  | fromDownstream (d : DownstreamResponse)
deriving DecidableEq, Repr

/-- Observable outcome of the FastAPI-variant dispatch: the response, whether
`call_next` ran, every cache key read, the single conditional cache write
`(key, value, ttl)`, and the fingerprint if one was computed. -/
structure MWResult where
  response : MWResponse
  downstreamInvoked : Bool
  cacheReads : List Str
  cacheWrite : Option (Str × Bytes × Nat)
  fingerprinted : Option Str
deriving DecidableEq, Repr

/-- Embeds `_handle_request` (lines 71–121).  `redisGet` is `redis.get`;
`callNext` is the downstream response `await call_next(request)` produces.
The walrus test `if cached_response := await redis.get(redis_key):` is
falsy both for `None` and for the empty byte string. -/
def handleRequest (redisGet : Str → RedisGetResult)
    (callNext : DownstreamResponse) (method path : Str) (requestBody : Bytes)
    (idempotencyKey : Str) (ttl : Nat) : Except MWError MWResult :=
  let key := fingerprint method path requestBody idempotencyKey
  let redisKey := redisKeyOf key
  let proceed : Except MWError MWResult :=
    let response := callNext
    let write :=
      if response.status < 400 then
        let responseBodyBytes := response.bodyChunks.flatten
        some (redisKey,
          encodeRecord ⟨responseBodyBytes, response.headers, response.status⟩,
          ttl)
      else none
    .ok ⟨.fromDownstream response, true, [redisKey], write, some key⟩
  match redisGet redisKey with
  | .unavailable => .error .cacheUnavailable
  | .missing => proceed
  | .found raw =>
    if raw ≠ [] then
      match decodeRecord raw with
      | none => .error .malformedRecord
      | some rec =>
          .ok ⟨.fromCache (responseFromRecord rec), false, [redisKey], none,
               some key⟩
    else proceed

/-- Embeds `dispatch` (lines 45–69): forward unmodified unless the key header is
truthy and the method is protected. -/
def dispatch (redisGet : Str → RedisGetResult) (callNext : DownstreamResponse)
    (method path : Str) (requestBody : Bytes) (idempotencyKey : Option Str)
    (ttl : Nat) : Except MWError MWResult :=
  if shouldIntercept method idempotencyKey then
    handleRequest redisGet callNext method path requestBody
      (idempotencyKey.getD []) ttl
  else .ok ⟨.fromDownstream callNext, true, [], none, none⟩

/-! ## Litestar/ASGI variant (`src/app/routers/middlewares/idempotent_request.py`) -/

/-- An ASGI receive event: an `http.request` chunk (with `more_body`), or any
other event type (ignored by the body loop). -/
inductive AsgiReceiveMsg where
  | httpRequest (body : Bytes) (moreBody : Bool)
  | other
deriving DecidableEq, Repr

/-- Embeds `_get_request_body` (lines 131–150): accumulate `http.request` chunks
until one has `more_body` false; other event types are skipped and leave
`more_body` unchanged.  `none` models the `while` loop suspending forever
because the stream ends without a final chunk. -/
def getRequestBody : List AsgiReceiveMsg → Bytes → Option Bytes
  | [], _ => none
  | .httpRequest b more :: rest, acc =>
      if more then getRequestBody rest (acc ++ b) else some (acc ++ b)
  | .other :: rest, acc => getRequestBody rest acc

/-- An ASGI send event: `http.response.start` (status and wire headers as
byte pairs), `http.response.body` (chunk and `more_body`), or any other
message type (passed through). -/
inductive SendMsg where
  | start (status : Nat) (headers : List (Bytes × Bytes))
  | body (chunk : Bytes) (moreBody : Bool)
  | other
deriving DecidableEq, Repr

/-- Python dict assignment `d[k] = v`: replace in place if the key exists,
else append (insertion order preserved). -/
def dictSet (d : List (Str × Str)) (k v : Str) : List (Str × Str) :=
  if d.any (fun kv => kv.1 == k) then
    d.map (fun kv => if kv.1 == k then (k, v) else kv)
  else d ++ [(k, v)]

/-- The closure state of `intercept_send`: collected chunks, the response
headers dict, every message passed through to `send`, and every
`redis.set(key, value, ex=ttl)` performed. -/
structure InterceptState where
  responseChunks : List Bytes
  responseHeaders : List (Str × Str)
  sent : List SendMsg
  writes : List (Str × Bytes × Nat)
deriving DecidableEq, Repr

/-- One call of `intercept_send` (lines 93–126).  The source initializes the
local `response_status = 200` at the top of every call and never assigns it
from the `http.response.start` message, so the status this function compares
against 400 — and the status it stores — is always 200; the transcription
keeps that behavior.  Byte-string headers are decoded with latin-1, which is
the identity from byte values to code points.  An empty body chunk is falsy
and is not collected. -/
def interceptSend (redisKey : Str) (ttl : Nat) (st : InterceptState)
    (message : SendMsg) : InterceptState :=
  let response_status := 200
  match message with
  | .start _ hs =>
      let headers := hs.foldl (fun d nv => dictSet d nv.1 nv.2) st.responseHeaders
      { st with responseHeaders := headers, sent := st.sent ++ [message] }
  | .body chunk more =>
      let chunks :=
        if chunk ≠ [] then st.responseChunks ++ [chunk] else st.responseChunks
      let sent := st.sent ++ [message]
      if ¬more ∧ response_status < 400 then
        let responseBody := chunks.flatten
        { responseChunks := chunks, responseHeaders := st.responseHeaders,
          sent := sent,
          writes := st.writes ++
            [(redisKey,
              encodeRecord ⟨responseBody, st.responseHeaders, response_status⟩,
              ttl)] }
      else
        { st with responseChunks := chunks, sent := sent }
  | .other => { st with sent := st.sent ++ [message] }

/-- Embeds `_send_cached_response` (lines 152–185): one `http.response.start` with
the record's status and its headers as `(name.lower().encode("latin-1"),
str(value).encode("latin-1"))` pairs, then one final `http.response.body`
with the record's body. -/
def sendCachedResponse (rec : CachedRecord) : List SendMsg :=
  [ .start rec.status
      (rec.headers.map fun nv => (latin1Enc (pyLower nv.1), latin1Enc nv.2))
  , .body rec.body false ]

/-- Which receive callable the downstream application was given: the original
one, or the `new_receive` that replays the buffered body as a single final
chunk. -/
inductive ReceiveGiven where
  | original
  | replayed (body : Bytes)
deriving DecidableEq, Repr

/-- Observable outcome of the Litestar-variant `handle`: the messages sent to
the client, the receive given to the downstream app (`none` when the
downstream was never invoked), every cache key read, every cache write, and
the fingerprint if one was computed. -/
structure LsResult where
  sent : List SendMsg
  downstreamReceive : Option ReceiveGiven
  cacheReads : List Str
  writes : List (Str × Bytes × Nat)
  fingerprinted : Option Str
deriving DecidableEq, Repr

/-- Embeds `handle` (lines 40–129) for an HTTP scope.  The downstream ASGI app is
modelled by the send messages it emits as a function of the receive it is
given; on a miss those messages pass through `intercept_send` (fold over the
closure state), and `new_receive` replays the buffered body as
`{"type": "http.request", "body": body, "more_body": False}`. -/
def lsHandle (redisGet : Str → RedisGetResult)
    (downstream : ReceiveGiven → List SendMsg) (method path : Str)
    (idempotencyKey : Option Str) (receiveStream : List AsgiReceiveMsg)
    (ttl : Nat) : Except MWError LsResult :=
  if shouldIntercept method idempotencyKey then
    match getRequestBody receiveStream [] with
    | none => .error .incompleteRequest
    | some body =>
      let key := fingerprint method path body (idempotencyKey.getD [])
      let redisKey := redisKeyOf key
      let proceed : Except MWError LsResult :=
        let msgs := downstream (.replayed body)
        let final := msgs.foldl (interceptSend redisKey ttl) ⟨[], [], [], []⟩
        .ok ⟨final.sent, some (.replayed body), [redisKey], final.writes,
             some key⟩
      match redisGet redisKey with
      | .unavailable => .error .cacheUnavailable
      | .missing => proceed
      | .found raw =>
        if raw ≠ [] then
          match decodeRecord raw with
          | none => .error .malformedRecord
          | some rec =>
              .ok ⟨sendCachedResponse rec, none, [redisKey], [], some key⟩
        else proceed
  else .ok ⟨downstream .original, some .original, [], [], none⟩

/-! ## Witness inputs: small concrete values used to instantiate the claims -/

/-- The method `"POST"` as code points. -/
def postMethod : Str := [80, 79, 83, 84]

/-- The method `"GET"` as code points. -/
def getMethod : Str := [71, 69, 84]

/-- A concrete record: non-ASCII body bytes, two headers (one with a
non-ASCII value), status 201. -/
def wRec : CachedRecord :=
  ⟨[255, 0, 226], [([99, 116], [97, 47, 98]), ([120, 45, 97], [233])], 201⟩

/-- A receive stream delivering the body `"hi"` in one final chunk. -/
def wStream : List AsgiReceiveMsg := [.httpRequest [104, 105] false]

/-- The code points of the standard SHA-256 test vector digest
`sha256("abc") = ba7816bf8f01cfea414140de5dae2223b00361a396177a9cb410ff61f20015ad`,
used to validate the embedding of `hashlib.sha256` against its standard. -/
def abcDigest : Str :=
  [98, 97, 55, 56, 49, 54, 98, 102, 56, 102, 48, 49, 99, 102, 101, 97,
   52, 49, 52, 49, 52, 48, 100, 101, 53, 100, 97, 101, 50, 50, 50, 51,
   98, 48, 48, 51, 54, 49, 97, 51, 57, 54, 49, 55, 55, 97, 57, 99,
   98, 52, 49, 48, 102, 102, 54, 49, 102, 50, 48, 48, 49, 53, 97, 100]

/-! ## CBOR round-trip lemmas -/

/-- Decoding inverts the initial-byte/argument encoding, for any major type
below 8 and any argument below `2^64`. -/
theorem decode_encodeTypeHeader (major n : Nat) (rest : Bytes)
    (_hm : major < 8) (hn : n < 18446744073709551616) :
    decodeTypeHeader (encodeTypeHeader major n ++ rest) = some (major, n, rest) := by
  unfold encodeTypeHeader
  split_ifs with h1 h2 h3 h4
  · have e1 : (32 * major + n) % 32 = n := by omega
    have e2 : (32 * major + n) / 32 = major := by omega
    simp [decodeTypeHeader, e1, e2, h1]
  · have e1 : (32 * major + 24) % 32 = 24 := by omega
    have e2 : (32 * major + 24) / 32 = major := by omega
    simp [decodeTypeHeader, e1, e2]
  · have e1 : (32 * major + 25) % 32 = 25 := by omega
    have e2 : (32 * major + 25) / 32 = major := by omega
    simp [decodeTypeHeader, e1, e2]
    omega
  · have e1 : (32 * major + 26) % 32 = 26 := by omega
    have e2 : (32 * major + 26) / 32 = major := by omega
    simp [decodeTypeHeader, e1, e2]
    omega
  · have e1 : (32 * major + 27) % 32 = 27 := by omega
    have e2 : (32 * major + 27) / 32 = major := by omega
    simp [decodeTypeHeader, e1, e2]
    omega

/-- Reading back exactly the bytes that were written leaves the rest. -/
theorem readBytes_append (bs rest : Bytes) :
    readBytes bs.length (bs ++ rest) = some (bs, rest) := by
  simp [readBytes, List.take_left, List.drop_left]

/-- UTF-8 decoding inverts UTF-8 encoding on strings whose code points are
below `0x800` (the record strings' range). -/
theorem utf8Decode_utf8Str (s : Str) (h : ∀ c ∈ s, c < 2048) :
    utf8Decode (utf8Str s) = some s := by
  induction s with
  | nil => simp [utf8Str, utf8Decode]
  | cons c tl ih =>
    have hc : c < 2048 := h c (by simp)
    have ihtl : utf8Decode (tl.flatMap utf8Char) = some tl := by
      have := ih (fun x hx => h x (by simp [hx]))
      simpa [utf8Str] using this
    by_cases h1 : c < 128
    · have e0 : utf8Char c = [c] := by simp [utf8Char, h1]
      simp only [utf8Str, List.flatMap_cons, e0, List.cons_append,
        List.nil_append]
      rw [utf8Decode.eq_def]
      simp [h1, ihtl]
    · have e0 : utf8Char c = [192 + c / 64, 128 + c % 64] := by
        simp [utf8Char, h1, hc]
      have e1 : ¬ (192 + c / 64 < 128) := by omega
      have e2 : 194 ≤ 192 + c / 64 ∧ 192 + c / 64 < 224 := by omega
      have e3 : 128 ≤ 128 + c % 64 ∧ 128 + c % 64 < 192 := by omega
      simp [utf8Str, e0, utf8Decode, e1, e2, e3, ihtl]
      omega

/-- Decoding inverts text-item encoding. -/
theorem decodeTextItem_append (s : Str) (rest : Bytes)
    (h : ∀ c ∈ s, c < 2048) (hl : (utf8Str s).length < 18446744073709551616) :
    decodeTextItem (encodeTextItem s ++ rest) = some (s, rest) := by
  unfold encodeTextItem decodeTextItem
  rw [List.append_assoc, decode_encodeTypeHeader 3 _ _ (by omega) hl]
  simp [readBytes_append, utf8Decode_utf8Str s h]

/-- Decoding inverts byte-string-item encoding. -/
theorem decodeBytesItem_append (b : Bytes) (rest : Bytes)
    (hl : b.length < 18446744073709551616) :
    decodeBytesItem (encodeBytesItem b ++ rest) = some (b, rest) := by
  unfold encodeBytesItem decodeBytesItem
  rw [List.append_assoc, decode_encodeTypeHeader 2 _ _ (by omega) hl]
  simp [readBytes_append]

/-- Decoding inverts unsigned-integer-item encoding. -/
theorem decodeUintItem_append (n : Nat) (rest : Bytes)
    (hn : n < 18446744073709551616) :
    decodeUintItem (encodeUintItem n ++ rest) = some (n, rest) := by
  unfold encodeUintItem decodeUintItem
  rw [decode_encodeTypeHeader 0 _ _ (by omega) hn]

/-- Decoding inverts the encoding of the header dict's entry list. -/
theorem decodePairs_append (hs : List (Str × Str)) (rest : Bytes)
    (hcp : ∀ kv ∈ hs, (∀ c ∈ kv.1, c < 2048) ∧ (∀ c ∈ kv.2, c < 2048))
    (hlen : ∀ kv ∈ hs, (utf8Str kv.1).length < 18446744073709551616 ∧
      (utf8Str kv.2).length < 18446744073709551616) :
    decodePairs hs.length
      (hs.flatMap (fun kv => encodeTextItem kv.1 ++ encodeTextItem kv.2) ++ rest) =
      some (hs, rest) := by
  induction hs with
  | nil => simp [decodePairs]
  | cons kv tl ih =>
    have h1 := hcp kv (by simp)
    have h2 := hlen kv (by simp)
    have htlcp : ∀ kv ∈ tl, (∀ c ∈ kv.1, c < 2048) ∧ (∀ c ∈ kv.2, c < 2048) :=
      fun x hx => hcp x (by simp [hx])
    have htllen : ∀ kv ∈ tl, (utf8Str kv.1).length < 18446744073709551616 ∧
        (utf8Str kv.2).length < 18446744073709551616 :=
      fun x hx => hlen x (by simp [hx])
    simp only [List.flatMap_cons, List.length_cons, List.append_assoc,
      decodePairs]
    simp [decodeTextItem_append kv.1 _ h1.1 h2.1,
      decodeTextItem_append kv.2 _ h1.2 h2.2, ih htlcp htllen]

/-! ## Digest shape: SHA-256 always yields 32 bytes, hence 64 hex digits -/

/-- The compression function preserves the 8-word hash state length. -/
theorem compress_length (H : List Nat) (block : Bytes) (h : H.length = 8) :
    (compress H block).length = 8 := by
  unfold compress
  simp [h]

/-- Folding `compress` over any block list keeps the state at 8 words. -/
theorem foldl_compress_length (blocks : List Bytes) (H : List Nat)
    (h : H.length = 8) : (blocks.foldl compress H).length = 8 := by
  induction blocks generalizing H with
  | nil => simpa using h
  | cons b tl ih => exact ih _ (compress_length H b h)

/-- A `flatMap` that emits 4 elements per entry quadruples the length. -/
theorem length_flatMap_four (l : List Nat) (f g i j : Nat → Nat) :
    (l.flatMap (fun w => [f w, g w, i w, j w])).length = 4 * l.length := by
  induction l with
  | nil => simp
  | cons a tl ih => simp [ih]; omega

/-- A `flatMap` that emits 2 elements per entry doubles the length. -/
theorem length_flatMap_two (l : List Nat) (f g : Nat → Nat) :
    (l.flatMap (fun w => [f w, g w])).length = 2 * l.length := by
  induction l with
  | nil => simp
  | cons a tl ih => simp [ih]; omega

/-- The SHA-256 digest is always 32 bytes. -/
theorem sha256Bytes_length (msg : Bytes) : (sha256Bytes msg).length = 32 := by
  unfold sha256Bytes
  rw [length_flatMap_four, foldl_compress_length _ _ (by simp [sha256H0])]

/-- The hex digest is always 64 characters. -/
theorem sha256Hex_length (msg : Bytes) : (sha256Hex msg).length = 64 := by
  unfold sha256Hex
  rw [length_flatMap_two, sha256Bytes_length]

/-! ## Injectivity of UTF-8 encoding (for the sensitivity analysis) -/

/-- A UTF-8-encoded character is never the empty byte string: `utf8Char` never emits the empty byte string. -/
theorem utf8Char_ne_nil (c : Nat) : utf8Char c ≠ [] := by
  unfold utf8Char
  split_ifs <;> simp

/-- A UTF-8-encoded character at the head of a byte stream determines the
character and the remainder (the code is prefix-free). -/
theorem utf8Char_append_inj (c₁ c₂ : Nat) (r₁ r₂ : Bytes)
    (h : utf8Char c₁ ++ r₁ = utf8Char c₂ ++ r₂) : c₁ = c₂ ∧ r₁ = r₂ := by
  unfold utf8Char at h
  split_ifs at h <;>
    simp only [List.cons_append, List.nil_append, List.cons.injEq] at h <;>
    refine ⟨by omega, ?_⟩ <;> simp_all
  all_goals omega

/-- UTF-8 string encoding is injective: distinct strings have distinct UTF-8 encodings. -/
theorem utf8Str_inj (s₁ s₂ : Str) (h : utf8Str s₁ = utf8Str s₂) : s₁ = s₂ := by
  induction s₁ generalizing s₂ with
  | nil =>
    cases s₂ with
    | nil => rfl
    | cons c tl =>
      exfalso
      simp only [utf8Str, List.flatMap_nil, List.flatMap_cons] at h
      exact utf8Char_ne_nil c (List.append_eq_nil.mp h.symm).1
  | cons c tl ih =>
    cases s₂ with
    | nil =>
      exfalso
      simp only [utf8Str, List.flatMap_nil, List.flatMap_cons] at h
      exact utf8Char_ne_nil c (List.append_eq_nil.mp h).1
    | cons c' tl' =>
      simp only [utf8Str, List.flatMap_cons] at h
      obtain ⟨hc, hrest⟩ := utf8Char_append_inj c c' _ _ h
      rw [hc, ih tl' hrest]

/-! ## The interception condition -/

/-- The interception test, spelled out: key present, non-empty, and a
protected method. -/
theorem shouldIntercept_iff (method : Str) (key : Option Str) :
    shouldIntercept method key = true ↔
      ∃ k, key = some k ∧ k ≠ [] ∧ method ∈ allowedMethods := by
  cases key with
  | none => simp [shouldIntercept]
  | some k => simp [shouldIntercept]

/-! ## The request-body loop -/

/-- Accumulating over non-final chunks: each `http.request` chunk with
`more_body` true is appended and the loop continues. -/
theorem getRequestBody_chunks (chunks : List Bytes)
    (rest : List AsgiReceiveMsg) (acc : Bytes) :
    getRequestBody (chunks.map (fun c => AsgiReceiveMsg.httpRequest c true) ++
      rest) acc = getRequestBody rest (acc ++ chunks.flatten) := by
  induction chunks generalizing acc with
  | nil => simp
  | cons c tl ih =>
    simp only [List.map_cons, List.cons_append, getRequestBody, if_pos,
      List.append_eq]
    rw [ih]
    simp [List.append_assoc]

/-- Lowercasing header names is the identity on headers whose names are
already lowercase; `latin1Enc` is the identity on code points. -/
theorem map_lower_id (hs : List (Str × Str))
    (h : ∀ nv ∈ hs, pyLower nv.1 = nv.1) :
    hs.map (fun nv => (latin1Enc (pyLower nv.1), latin1Enc nv.2)) = hs := by
  induction hs with
  | nil => simp
  | cons kv tl ih =>
    have h1 : pyLower kv.1 = kv.1 := h kv (by simp)
    have ih2 := ih (fun x hx => h x (by simp [hx]))
    simp only [latin1Enc] at ih2
    simp [latin1Enc, h1, ih2]

/-! ## Claims -/

/-- C3: the Fingerprint Deriver is the pure function sending
`(method, path, body, key)` to the hex SHA-256 digest of the concatenation
`method ++ path ++ body ++ key` in that fixed order (determinism is inherent:
it is a function of its four arguments and nothing else); the digest is
64 lowercase hex characters; the cache lookup key is `"request:"` followed by
that digest; and the embedded SHA-256 agrees with the standard on the
`"abc"` test vector. -/
theorem C3_fingerprint_is_sha256_hex (m p : Str) (b : Bytes) (k : Str) :
    fingerprint m p b k =
      sha256Hex (utf8Str m ++ utf8Str p ++ b ++ utf8Str k) ∧
    redisKeyOf (fingerprint m p b k) = requestNamespace ++ fingerprint m p b k ∧
    (fingerprint m p b k).length = 64 ∧
    sha256Hex [97, 98, 99] = abcDigest :=
  ⟨rfl, rfl, sha256Hex_length _, by decide⟩

/-- C4 counterexample: two requests that differ in both path and body
(`path="/a", body="bc"` versus `path="/ab", body="c"`) have equal
fingerprints, because the pre-hash encoding concatenates the fields with no
separators — no hash collision is involved.  This refutes the claim that any
two requests differing in at least one of the four fields get distinct
fingerprints. -/
theorem C4_counterexample :
    (([47, 97] : Str), ([98, 99] : Bytes)) ≠ (([47, 97, 98] : Str), ([99] : Bytes)) ∧
    fingerprint postMethod [47, 97] [98, 99] [107] =
      fingerprint postMethod [47, 97, 98] [99] [107] := by
  refine ⟨by decide, ?_⟩
  have h : preimage postMethod [47, 97] [98, 99] [107] =
      preimage postMethod [47, 97, 98] [99] [107] := by decide
  exact congrArg sha256Hex h

/-- C4 (amended): the fingerprint is a function of the separator-free
concatenation `method ++ path ++ body ++ key`, so equal concatenations force
equal fingerprints even when fields differ; but changing exactly one of the
four fields while the other three stay fixed always changes the
concatenation, so such requests can share a fingerprint only via a SHA-256
collision (exhibited explicitly in the last conjunct). -/
theorem C4_single_field_sensitivity (m m' p p' : Str) (b b' : Bytes)
    (k k' : Str) :
    (preimage m p b k = preimage m' p' b' k' →
      fingerprint m p b k = fingerprint m' p' b' k') ∧
    (m ≠ m' → p = p' → b = b' → k = k' →
      preimage m p b k ≠ preimage m' p' b' k') ∧
    (m = m' → p ≠ p' → b = b' → k = k' →
      preimage m p b k ≠ preimage m' p' b' k') ∧
    (m = m' → p = p' → b ≠ b' → k = k' →
      preimage m p b k ≠ preimage m' p' b' k') ∧
    (m = m' → p = p' → b = b' → k ≠ k' →
      preimage m p b k ≠ preimage m' p' b' k') ∧
    (preimage m p b k ≠ preimage m' p' b' k' →
      fingerprint m p b k = fingerprint m' p' b' k' →
      ∃ x y : Bytes, x ≠ y ∧ sha256Hex x = sha256Hex y) := by
  refine ⟨fun h => congrArg sha256Hex h, ?_, ?_, ?_, ?_,
    fun hne heq => ⟨_, _, hne, heq⟩⟩
  · intro hm hp hb hk heq
    subst hp; subst hb; subst hk
    unfold preimage at heq
    exact hm (utf8Str_inj _ _ (List.append_cancel_right
      (List.append_cancel_right (List.append_cancel_right heq))))
  · intro hm hp hb hk heq
    subst hm; subst hb; subst hk
    unfold preimage at heq
    exact hp (utf8Str_inj _ _ (List.append_cancel_left
      (List.append_cancel_right (List.append_cancel_right heq))))
  · intro hm hp hb hk heq
    subst hm; subst hp; subst hk
    unfold preimage at heq
    exact hb (List.append_cancel_left (List.append_cancel_right heq))
  · intro hm hp hb hk heq
    subst hm; subst hp; subst hb
    unfold preimage at heq
    exact hk (utf8Str_inj _ _ (List.append_cancel_left heq))

/-- C4 witness: instantiating the single-field sensitivity at a concrete
key change (`"k"` versus `"kk"`, all other fields fixed). -/
theorem C4_single_field_sensitivity_witness :
    (([107] : Str) ≠ [107, 107]) ∧
    preimage postMethod [47] [98] [107] ≠
      preimage postMethod [47] [98] [107, 107] :=
  ⟨by decide,
    (C4_single_field_sensitivity postMethod postMethod [47] [47] [98] [98]
      [107] [107, 107]).2.2.2.2.1 rfl rfl rfl (by decide)⟩

/-- C8: encoding a Cached Response Record to the cache wire format and
decoding it back reconstructs the body bytes, the headers, and the status
code exactly, for every record whose status, byte length, header count and
header-string lengths fit in CBOR's 64-bit arguments and whose header code
points are in the two-byte UTF-8 range (which covers every record the
middleware builds: its header strings are latin-1 decoded, so all code
points are below 256). -/
theorem C8_record_roundtrip (r : CachedRecord)
    (hstatus : r.status < 18446744073709551616)
    (hbody : r.body.length < 18446744073709551616)
    (hhn : r.headers.length < 18446744073709551616)
    (hcp : ∀ kv ∈ r.headers, (∀ c ∈ kv.1, c < 2048) ∧ (∀ c ∈ kv.2, c < 2048))
    (hlen : ∀ kv ∈ r.headers, (utf8Str kv.1).length < 18446744073709551616 ∧
      (utf8Str kv.2).length < 18446744073709551616) :
    decodeRecord (encodeRecord r) = some r := by
  have hu : decodeUintItem (encodeUintItem r.status) = some (r.status, []) := by
    have h := decodeUintItem_append r.status [] hstatus
    simpa using h
  unfold encodeRecord decodeRecord encodeHeaders
  simp only [List.append_assoc]
  rw [decode_encodeTypeHeader 5 3 _ (by omega) (by omega)]
  simp only [decodeTextItem_append keyBody _ (by decide) (by decide),
    decodeBytesItem_append r.body _ hbody,
    decodeTextItem_append keyHeaders _ (by decide) (by decide),
    decodeTextItem_append keyStatus _ (by decide) (by decide),
    decodeUintItem_append r.status _ hstatus]
  rw [decode_encodeTypeHeader 5 r.headers.length _ (by omega) hhn]
  simp [decodePairs_append r.headers _ hcp hlen,
    decodeTextItem_append keyStatus _ (by decide) (by decide), hu]

/-- C8 witness: a record with non-ASCII body bytes and two headers (one
holding a non-ASCII value) round-trips byte-identically. -/
theorem C8_record_roundtrip_witness :
    (∀ kv ∈ wRec.headers, (∀ c ∈ kv.1, c < 2048) ∧ (∀ c ∈ kv.2, c < 2048)) ∧
    decodeRecord (encodeRecord wRec) = some wRec :=
  ⟨by decide,
    C8_record_roundtrip wRec (by decide) (by decide) (by decide) (by decide)
      (by decide)⟩

/-- C7: a request whose method is outside {POST, PUT, PATCH} or which has no
X-Idempotency-Key header is forwarded unmodified in both variants: the
downstream handler runs (with the original receive in the ASGI variant), the
response is the downstream response untouched, and no fingerprint is
computed, no cache key read, and nothing written. -/
theorem C7_passthrough (redisGet : Str → RedisGetResult)
    (callNext : DownstreamResponse) (downstream : ReceiveGiven → List SendMsg)
    (method path : Str) (requestBody : Bytes) (idempotencyKey : Option Str)
    (stream : List AsgiReceiveMsg) (ttl : Nat)
    (h : method ∉ allowedMethods ∨ idempotencyKey = none) :
    dispatch redisGet callNext method path requestBody idempotencyKey ttl =
      .ok ⟨.fromDownstream callNext, true, [], none, none⟩ ∧
    lsHandle redisGet downstream method path idempotencyKey stream ttl =
      .ok ⟨downstream .original, some .original, [], [], none⟩ := by
  have hsi : shouldIntercept method idempotencyKey = false := by
    rcases h with h | h
    · cases idempotencyKey <;> simp [shouldIntercept, h]
    · simp [h, shouldIntercept]
  exact ⟨by simp [dispatch, hsi], by simp [lsHandle, hsi]⟩

/-- C7 witness: a GET request carrying an idempotency key passes through. -/
theorem C7_passthrough_witness :
    getMethod ∉ allowedMethods ∧
    dispatch (fun _ => .missing) ⟨200, [], []⟩ getMethod [47] []
        (some [97, 98, 99, 49, 50, 51]) 120 =
      .ok ⟨.fromDownstream ⟨200, [], []⟩, true, [], none, none⟩ := by
  have h : getMethod ∉ allowedMethods := by decide
  exact ⟨h,
    (C7_passthrough (fun _ => .missing) ⟨200, [], []⟩ (fun _ => []) getMethod
      [47] [] (some [97, 98, 99, 49, 50, 51]) [] 120 (Or.inl h)).1⟩

/-- C10: a request carrying the X-Idempotency-Key header with the empty
string as value is not intercepted in either variant: the empty string is
falsy in the `idempotency_key and method in allowed_methods` test, so the
request is forwarded with no fingerprint computed and no cache access. -/
theorem C10_empty_key_passthrough (redisGet : Str → RedisGetResult)
    (callNext : DownstreamResponse) (downstream : ReceiveGiven → List SendMsg)
    (method path : Str) (requestBody : Bytes) (stream : List AsgiReceiveMsg)
    (ttl : Nat) :
    dispatch redisGet callNext method path requestBody (some []) ttl =
      .ok ⟨.fromDownstream callNext, true, [], none, none⟩ ∧
    lsHandle redisGet downstream method path (some []) stream ttl =
      .ok ⟨downstream .original, some .original, [], [], none⟩ := by
  have hsi : shouldIntercept method (some []) = false := by
    simp [shouldIntercept]
  exact ⟨by simp [dispatch, hsi], by simp [lsHandle, hsi]⟩

/-- C1: on a cache hit (an unexpired record under the request's fingerprint),
both variants return a response reconstructed verbatim from the record — the
record's status code, its body bytes, and its headers (exactly, for header
names that are already lowercase, which is how this middleware's own capture
stores them; the Litestar replay lowercases names, and the FastAPI variant
re-emits the record headers with the content type carried via `media_type`) —
and the downstream handler is not invoked: nothing is written and the
downstream receive/`call_next` is never used. -/
theorem C1_hit_replays_cached_response (redisGet : Str → RedisGetResult)
    (downstream : ReceiveGiven → List SendMsg) (callNext : DownstreamResponse)
    (method path k : Str) (stream : List AsgiReceiveMsg) (body raw : Bytes)
    (rec : CachedRecord) (ttl : Nat)
    (hm : method ∈ allowedMethods) (hk : k ≠ [])
    (hstream : getRequestBody stream [] = some body)
    (hfound : redisGet (redisKeyOf (fingerprint method path body k)) =
      .found raw)
    (hraw : raw ≠ [])
    (hdec : decodeRecord raw = some rec)
    (hnames : ∀ nv ∈ rec.headers, pyLower nv.1 = nv.1) :
    lsHandle redisGet downstream method path (some k) stream ttl =
      .ok ⟨[.start rec.status rec.headers, .body rec.body false], none,
           [redisKeyOf (fingerprint method path body k)], [],
           some (fingerprint method path body k)⟩ ∧
    handleRequest redisGet callNext method path body k ttl =
      .ok ⟨.fromCache (responseFromRecord rec), false,
           [redisKeyOf (fingerprint method path body k)], none,
           some (fingerprint method path body k)⟩ := by
  have hsi : shouldIntercept method (some k) = true := by
    simp [shouldIntercept, hk, hm]
  constructor
  · simp only [lsHandle, hsi, if_true, hstream, Option.getD_some]
    simp [hfound, hraw, hdec, sendCachedResponse,
      map_lower_id rec.headers hnames]
  · unfold handleRequest
    simp [hfound, hraw, hdec]

/-- C1 witness: a concrete hit — the stored record `wRec` is replayed with
its status 201, its body bytes, and its headers, and the downstream is not
invoked. -/
theorem C1_hit_replays_cached_response_witness :
    decodeRecord (encodeRecord wRec) = some wRec ∧
    lsHandle (fun _ => .found (encodeRecord wRec)) (fun _ => []) postMethod
        [47] (some [97]) wStream 120 =
      .ok ⟨[.start wRec.status wRec.headers, .body wRec.body false], none,
           [redisKeyOf (fingerprint postMethod [47] [104, 105] [97])], [],
           some (fingerprint postMethod [47] [104, 105] [97])⟩ :=
  ⟨by decide,
    (C1_hit_replays_cached_response (fun _ => .found (encodeRecord wRec))
      (fun _ => []) ⟨200, [], []⟩ postMethod [47] [97] wStream [104, 105]
      (encodeRecord wRec) wRec 120 (by decide) (by decide) (by decide) rfl
      (by decide) (by decide) (by decide)).1⟩

/-- C5 counterexample: when the backend `get` raises (`unavailable`), neither
variant treats it as a miss — the error escapes the middleware and the
downstream handler is not invoked, refuting fail-open behavior. -/
theorem C5_counterexample :
    lsHandle (fun _ => .unavailable) (fun _ => []) postMethod [47] (some [97])
        wStream 120 = .error .cacheUnavailable ∧
    handleRequest (fun _ => .unavailable) ⟨200, [], []⟩ postMethod [47]
        [104, 105] [97] 120 = .error .cacheUnavailable := by
  constructor <;> rfl

/-- C5 (amended): for every intercepted request whose cache `get` fails, both
variants propagate the failure out of the middleware (there is no
`try`/`except` around `redis.get`): the result is the raised error, the
downstream handler is not invoked and no response is produced by the
middleware. -/
theorem C5_get_failure_propagates (redisGet : Str → RedisGetResult)
    (downstream : ReceiveGiven → List SendMsg) (callNext : DownstreamResponse)
    (method path k : Str) (stream : List AsgiReceiveMsg) (body : Bytes)
    (ttl : Nat)
    (hm : method ∈ allowedMethods) (hk : k ≠ [])
    (hstream : getRequestBody stream [] = some body)
    (hunavail : redisGet (redisKeyOf (fingerprint method path body k)) =
      .unavailable) :
    lsHandle redisGet downstream method path (some k) stream ttl =
      .error .cacheUnavailable ∧
    handleRequest redisGet callNext method path body k ttl =
      .error .cacheUnavailable := by
  have hsi : shouldIntercept method (some k) = true := by
    simp [shouldIntercept, hk, hm]
  constructor
  · simp only [lsHandle, hsi, if_true, hstream, Option.getD_some]
    simp [hunavail]
  · unfold handleRequest
    simp [hunavail]

/-- C5 witness: the amended behavior at a concrete erroring backend. -/
theorem C5_get_failure_propagates_witness :
    ((fun (_ : Str) => RedisGetResult.unavailable)
        (redisKeyOf (fingerprint postMethod [47] [104, 105] [97])) =
      .unavailable) ∧
    lsHandle (fun _ => .unavailable) (fun _ => []) postMethod [47] (some [97])
        wStream 120 = .error .cacheUnavailable :=
  ⟨rfl,
    (C5_get_failure_propagates (fun _ => .unavailable) (fun _ => [])
      ⟨200, [], []⟩ postMethod [47] [97] wStream [104, 105] 120 (by decide)
      (by decide) (by decide) rfl).1⟩

/-- C6 counterexample: a stored value that fails to deserialize (the single
byte `0xFF`, which `cbor2.loads` rejects) does not degrade to a cache miss —
the decode error escapes both variants and the downstream handler is not
invoked. -/
theorem C6_counterexample :
    lsHandle (fun _ => .found [255]) (fun _ => []) postMethod [47] (some [97])
        wStream 120 = .error .malformedRecord ∧
    handleRequest (fun _ => .found [255]) ⟨200, [], []⟩ postMethod [47]
        [104, 105] [97] 120 = .error .malformedRecord := by
  constructor <;> rfl

/-- C6 (amended): for every intercepted request whose stored cache value is
non-empty but fails to deserialize, both variants propagate the
deserialization error (`cbor2_loads` is not wrapped in any `try`/`except`):
the request does not proceed to the downstream handler. -/
theorem C6_malformed_record_propagates (redisGet : Str → RedisGetResult)
    (downstream : ReceiveGiven → List SendMsg) (callNext : DownstreamResponse)
    (method path k : Str) (stream : List AsgiReceiveMsg) (body raw : Bytes)
    (ttl : Nat)
    (hm : method ∈ allowedMethods) (hk : k ≠ [])
    (hstream : getRequestBody stream [] = some body)
    (hfound : redisGet (redisKeyOf (fingerprint method path body k)) =
      .found raw)
    (hraw : raw ≠ [])
    (hdec : decodeRecord raw = none) :
    lsHandle redisGet downstream method path (some k) stream ttl =
      .error .malformedRecord ∧
    handleRequest redisGet callNext method path body k ttl =
      .error .malformedRecord := by
  have hsi : shouldIntercept method (some k) = true := by
    simp [shouldIntercept, hk, hm]
  constructor
  · simp only [lsHandle, hsi, if_true, hstream, Option.getD_some]
    simp [hfound, hraw, hdec]
  · unfold handleRequest
    simp [hfound, hraw, hdec]

/-- C6 witness: the amended behavior at the concrete malformed value `0xFF`. -/
theorem C6_malformed_record_propagates_witness :
    decodeRecord [255] = none ∧
    lsHandle (fun _ => .found [255]) (fun _ => []) postMethod [47] (some [97])
        wStream 120 = .error .malformedRecord :=
  ⟨by decide,
    (C6_malformed_record_propagates (fun _ => .found [255]) (fun _ => [])
      ⟨200, [], []⟩ postMethod [47] [97] wStream [104, 105] [255] 120
      (by decide) (by decide) (by decide) rfl (by decide) (by decide)).1⟩

/-- C2 (code bug): the Litestar variant's `intercept_send` initializes its
local `response_status = 200` and never assigns it from the
`http.response.start` message, so a downstream response with status 500 *is*
cached — and the record stores status 200 instead of the actual status —
contradicting both the claim and the source's own comment ("If this is the
last chunk and status is successful, cache the response").  The FastAPI
variant behaves as claimed: after a 500 response its cache write is `none`
(second conjunct). -/
theorem C2_bug_500_response_is_cached :
    (([SendMsg.start 500 [], SendMsg.body [120] false]).foldl
        (interceptSend [107] 120) ⟨[], [], [], []⟩).writes =
      [([107], encodeRecord ⟨[120], [], 200⟩, 120)] ∧
    (handleRequest (fun _ => .missing) ⟨500, [[120]], []⟩ postMethod [47] []
        [97] 120).map MWResult.cacheWrite = .ok none := by
  constructor
  · decide
  · rfl

/-- C9: on a miss, the Litestar variant hands the downstream app a receive
that replays exactly the buffered request body — the concatenation, in
order, of all `http.request` chunks up to and including the final one — so
the downstream sees the same bytes an un-intercepted request would deliver. -/
theorem C9_downstream_receives_buffered_body (redisGet : Str → RedisGetResult)
    (downstream : ReceiveGiven → List SendMsg) (method path k : Str)
    (chunks : List Bytes) (last : Bytes) (ttl : Nat)
    (hm : method ∈ allowedMethods) (hk : k ≠ [])
    (hmiss : redisGet
        (redisKeyOf (fingerprint method path (chunks.flatten ++ last) k)) =
      .missing) :
    getRequestBody
        (chunks.map (fun c => AsgiReceiveMsg.httpRequest c true) ++
          [AsgiReceiveMsg.httpRequest last false]) [] =
      some (chunks.flatten ++ last) ∧
    (lsHandle redisGet downstream method path (some k)
        (chunks.map (fun c => AsgiReceiveMsg.httpRequest c true) ++
          [AsgiReceiveMsg.httpRequest last false]) ttl).map
        LsResult.downstreamReceive =
      .ok (some (.replayed (chunks.flatten ++ last))) := by
  have hbody : getRequestBody
      (chunks.map (fun c => AsgiReceiveMsg.httpRequest c true) ++
        [AsgiReceiveMsg.httpRequest last false]) [] =
      some (chunks.flatten ++ last) := by
    rw [getRequestBody_chunks]
    simp [getRequestBody]
  refine ⟨hbody, ?_⟩
  have hsi : shouldIntercept method (some k) = true := by
    simp [shouldIntercept, hk, hm]
  simp only [lsHandle, hsi, if_true, hbody, Option.getD_some]
  simp [hmiss, Except.map]

/-- C9 witness: a three-chunk request body (`"h"`, `"i"`, `"!"`) reaches the
downstream as the single replayed body `"hi!"`. -/
theorem C9_downstream_receives_buffered_body_witness :
    (([[104], [105]] : List Bytes).flatten ++ [33] = [104, 105, 33]) ∧
    (lsHandle (fun _ => .missing) (fun _ => []) postMethod [47] (some [97])
        (([[104], [105]] : List Bytes).map
          (fun c => AsgiReceiveMsg.httpRequest c true) ++
          [AsgiReceiveMsg.httpRequest [33] false]) 120).map
        LsResult.downstreamReceive =
      .ok (some (.replayed (([[104], [105]] : List Bytes).flatten ++ [33]))) :=
  ⟨by decide,
    (C9_downstream_receives_buffered_body (fun _ => .missing) (fun _ => [])
      postMethod [47] [97] [[104], [105]] [33] 120 (by decide) (by decide)
      rfl).2⟩

end IdempotencyMW
